import Mathlib

/-!
Verification development for the minecraft-neon-blink repository.

The repository composites a solid-colour overlay onto source textures
(`neon_texture_overlay.py`), assembles per-colour and per-parameter grids
(`texture_color_grid.py`, `texture_grid_generator.py`) and writes the
results (`save_image`).  The pixel-level work is delegated to the Pillow
imaging library; the embedding below translates both the repository's own
functions and the Pillow primitives they invoke into pure Lean functions.

Conventions of the embedding:
* a pixel is a quadruple of natural channel values (8-bit in well-formed
  images, the type itself is unbounded);
* an image is a width, a height and a total pixel function;
* Python floats are modelled by rationals; `float -> int` truncation of
  the non-negative quantities that occur here is the rational floor;
* fallible Python code (raising `ValueError`) is modelled with `Except`.
-/

/-- An RGBA pixel: four 8-bit channels (modelled as unbounded naturals). -/
structure RGBA where
  r : ℕ
  g : ℕ
  b : ℕ
  a : ℕ
  deriving DecidableEq, Repr

/-- A rectangular RGBA pixel buffer: dimensions plus a total pixel map
(`pixel x y` with `x` the column and `y` the row). -/
structure Image where
  width : ℕ
  height : ℕ
  pixel : ℕ → ℕ → RGBA

/-- Pillow `Image.new('RGBA', (width, height), color)`: a constant image. -/
def Image.new (width height : ℕ) (color : RGBA) : Image :=
  ⟨width, height, fun _ _ => color⟩

/-- One channel of Pillow `Image.blend(im1, im2, alpha)` (C `Blend.c`):
`out = in1 + alpha * (in2 - in1)`, truncated, and clamped to `[0, 255]`
(Pillow clamps explicitly when `alpha` lies outside `[0, 1]`; inside that
range the value is already in `[0, 255]` for 8-bit inputs). -/
def blendChannel (c1 c2 : ℕ) (alpha : ℚ) : ℕ :=
  if (c1 : ℚ) + alpha * ((c2 : ℚ) - (c1 : ℚ)) ≤ 0 then 0
  else if 255 ≤ (c1 : ℚ) + alpha * ((c2 : ℚ) - (c1 : ℚ)) then 255
  else (⌊(c1 : ℚ) + alpha * ((c2 : ℚ) - (c1 : ℚ))⌋).toNat

/-- Pillow `Image.blend` on one RGBA pixel: every band is interpolated. -/
def blendPixel (p q : RGBA) (alpha : ℚ) : RGBA :=
  ⟨blendChannel p.r q.r alpha, blendChannel p.g q.g alpha,
   blendChannel p.b q.b alpha, blendChannel p.a q.a alpha⟩

/-- Pillow `Image.blend(im1, im2, alpha)`; the repository only blends
images of equal size, so the result carries `im1`'s dimensions. -/
def Image.blend (im1 im2 : Image) (alpha : ℚ) : Image :=
  ⟨im1.width, im1.height, fun x y => blendPixel (im1.pixel x y) (im2.pixel x y) alpha⟩

/-- Pillow's `SHIFTFORDIV255` macro: `((x >> 8) + x) >> 8`,
an exact division by 255 after the caller adds the rounding bias. -/
def shiftForDiv255 (x : ℕ) : ℕ := (x / 256 + x) / 256

/-- Pillow's `MULDIV255` macro: `SHIFTFORDIV255(a * b + 0x80)`,
i.e. `a * b / 255` rounded to nearest. -/
def muldiv255 (a b : ℕ) : ℕ := shiftForDiv255 (a * b + 128)

/-- One pixel of Pillow `Image.alpha_composite(dst, src)` (`src` over
`dst`), following the integer arithmetic of Pillow's `AlphaComposite.c`
with its 7 precision bits. -/
def alphaCompositePixel (dst src : RGBA) : RGBA :=
  if src.a = 0 then dst
  else
    let blend := dst.a * (255 - src.a)
    let outa255 := src.a * 255 + blend
    let coef1 := src.a * 255 * 255 * 128 / outa255
    let coef2 := 255 * 128 - coef1
    let chan := fun (sc dc : ℕ) => shiftForDiv255 (sc * coef1 + dc * coef2 + 16384) / 128
    ⟨chan src.r dst.r, chan src.g dst.g, chan src.b dst.b,
     shiftForDiv255 (outa255 + 128)⟩

/-- Pillow `Image.alpha_composite(im1, im2)`: `im2` composited over `im1`. -/
def alphaComposite (im1 im2 : Image) : Image :=
  ⟨im1.width, im1.height, fun x y => alphaCompositePixel (im1.pixel x y) (im2.pixel x y)⟩

/-- One pixel of Pillow `ImageEnhance.Brightness(im).enhance(factor)`:
Pillow blends between a degenerate black image and `im`; for RGBA input
the degenerate image receives `im`'s alpha band, so the colour bands are
scaled (extrapolated and clamped for `factor > 1`) while the alpha band is
interpolated with itself. -/
def brightnessPixel (factor : ℚ) (p : RGBA) : RGBA :=
  ⟨blendChannel 0 p.r factor, blendChannel 0 p.g factor,
   blendChannel 0 p.b factor, blendChannel p.a p.a factor⟩

/-- One pixel of Pillow `background.paste(im, box, mask=im)` inside the
pasted box, with the RGBA image itself as mask: every band of the result
is `BLEND(mask, bg, im) = MULDIV255(bg, 255 - m) + MULDIV255(im, m)` where
`m` is `im`'s alpha at that point (Pillow's `Paste.c`). -/
def pasteMaskPixel (bg im : RGBA) : RGBA :=
  let m := im.a
  ⟨muldiv255 bg.r (255 - m) + muldiv255 im.r m,
   muldiv255 bg.g (255 - m) + muldiv255 im.g m,
   muldiv255 bg.b (255 - m) + muldiv255 im.b m,
   muldiv255 bg.a (255 - m) + muldiv255 im.a m⟩

/-- Pillow `bg.paste(im, (ox, oy), mask=im)` as a pure function: inside
the pasted rectangle the bands are mask-blended, outside `bg` is kept. -/
def pasteMask (bg im : Image) (ox oy : ℕ) : Image :=
  ⟨bg.width, bg.height, fun x y =>
    if ox ≤ x ∧ x < ox + im.width ∧ oy ≤ y ∧ y < oy + im.height then
      pasteMaskPixel (bg.pixel x y) (im.pixel (x - ox) (y - oy))
    else bg.pixel x y⟩

/-- ASCII lower-casing of one character (`str.lower` on the inputs the
repository handles). -/
def lowerChar (c : Char) : Char :=
  if 'A' ≤ c ∧ c ≤ 'Z' then Char.ofNat (c.toNat + 32) else c

/-- Python `str.lower()` on ASCII strings. -/
def strToLower (s : String) : String := String.mk (s.toList.map lowerChar)

/-- Constant `NEON_COLORS` from `neon_colors.py`: the fixed ordered mapping of the
ten named colours to RGB triples. -/
def NEON_COLORS : List (String × (ℕ × ℕ × ℕ)) :=
  [("red", (255, 0, 0)), ("orange", (255, 165, 0)), ("yellow", (255, 255, 0)),
   ("lime", (50, 255, 50)), ("green", (0, 255, 0)), ("cyan", (0, 255, 255)),
   ("blue", (0, 100, 255)), ("purple", (128, 0, 255)), ("magenta", (255, 0, 255)),
   ("pink", (255, 20, 147))]

/-- Function `get_color_names()` from `neon_colors.py`: the colour names in
declaration order. -/
def get_color_names : List String := NEON_COLORS.map Prod.fst

/-- Function `get_color(color_name)` from `neon_colors.py`: lower-cases the name
and looks it up; an unknown name raises `ValueError` (modelled `none`). -/
def get_color (color_name : String) : Option (ℕ × ℕ × ℕ) :=
  (NEON_COLORS.find? (fun p => p.1 == strToLower color_name)).map Prod.snd

/-- Function `create_neon_overlay(size, neon_color, opacity)` from
`neon_texture_overlay.py`: rejects opacity outside `[0, 1]` with a
`ValueError`, otherwise builds the solid overlay whose alpha is
`int(255 * opacity)`. -/
def create_neon_overlay (size : ℕ × ℕ) (neon_color : ℕ × ℕ × ℕ) (opacity : ℚ) :
    Except String Image :=
  if 0 ≤ opacity ∧ opacity ≤ 1 then
    .ok (Image.new size.1 size.2
      ⟨neon_color.1, neon_color.2.1, neon_color.2.2, (⌊(255 : ℚ) * opacity⌋).toNat⟩)
  else
    .error "Opacity must be between 0.0 and 1.0"

/-- Function `apply_neon_glow(image, glow_color, glow_intensity)` from
`neon_texture_overlay.py`: a brightness enhancement by the fixed factor;
the colour argument is accepted but unused, exactly as in the source. -/
def apply_neon_glow (image : Image) (glow_color : ℕ × ℕ × ℕ)
    (glow_intensity : ℚ := 3 / 2) : Image :=
  ⟨image.width, image.height, fun x y => brightnessPixel glow_intensity (image.pixel x y)⟩

/-- Function `blend_texture_with_neon(texture, neon_color, opacity, blend_mode)`
from `neon_texture_overlay.py`: builds the overlay (which validates the
opacity), dispatches on the blend-mode string — any unrecognized string
falls into the final `normal` branch — and applies the glow. -/
def blend_texture_with_neon (texture : Image) (neon_color : ℕ × ℕ × ℕ)
    (opacity : ℚ) (blend_mode : String) : Except String Image :=
  match create_neon_overlay (texture.width, texture.height) neon_color opacity with
  | .error e => .error e
  | .ok neon_overlay =>
    let result :=
      if blend_mode = "screen" then Image.blend texture neon_overlay opacity
      else if blend_mode = "overlay" then alphaComposite texture neon_overlay
      else if blend_mode = "multiply" then Image.blend texture neon_overlay (opacity * (1 / 2))
      else alphaComposite texture neon_overlay
    .ok (apply_neon_glow result neon_color)

/-- A 16×16 fully opaque red source texture (the spec's worked example). -/
def red16 : Image := Image.new 16 16 ⟨255, 0, 0, 255⟩

/-- Modelled from the spec: the desaturation step the specification
describes ("desaturate the source image's RGB channels to eliminate hue
while preserving its existing alpha channel"); no desaturation code
exists anywhere in the repository.  The standard ITU-R 601 luma used by
Pillow's greyscale conversion is taken as the desaturation formula. -/
def desaturate (image : Image) : Image :=
  ⟨image.width, image.height, fun x y =>
    let p := image.pixel x y
    let l := (p.r * 299 + p.g * 587 + p.b * 114) / 1000
    ⟨l, l, l, p.a⟩⟩

/-! ## `texture_color_grid.py` -/

/-- Constant `BLOCK_GROUPS` from `texture_color_grid.py`: the fixed list of block
group names used to compute deterministic seeds. -/
def BLOCK_GROUPS : List String :=
  ["log_oak", "log_spruce", "log_birch", "log_jungle", "log_acacia", "log_big_oak",
   "quartz_block_lines", "hay_block_side", "tnt", "bed",
   "door_wood", "door_spruce", "door_birch", "door_jungle", "door_acacia", "door_dark_oak",
   "door_iron", "piston", "anvil", "brewing_stand", "enchanting_table",
   "cauldron", "crafting_table", "furnace", "dispenser", "dropper",
   "jukebox", "grass", "mycelium", "podzol", "pumpkin", "melon"]

/-- Python `s.split('_')[0]`: the characters before the first underscore. -/
def firstToken (s : String) : String :=
  String.mk (s.toList.takeWhile (fun c => c ≠ '_'))

/-- Python `s.startswith(pre)`, evaluated on the character lists. -/
def strStartsWith (s pre : String) : Bool :=
  pre.toList.isPrefixOf s.toList

/-- Function `get_texture_prefix(texture_name)` from `texture_color_grid.py`:
scans `BLOCK_GROUPS` in order for the first entry that starts with the
texture name's first underscore-delimited token and returns that entry's
own first token; falls back to the full texture name. -/
def get_texture_prefix (texture_name : String) : String :=
  match BLOCK_GROUPS.find? (fun group => strStartsWith group (firstToken texture_name)) with
  | some group => firstToken group
  | none => texture_name

/-- Model of Python `random.seed(s)` for a string `s`: the seeded
generator state, a deterministic function of the string (CPython derives
it from a SHA-512 digest of the encoded string; the claims depend only on
the state being a function of the string, modelled here by accumulating
the character codes). -/
def seedOfString (s : String) : ℕ :=
  s.toList.foldl (fun acc c => acc * 1114112 + c.toNat) 1

/-- Model of one pseudo-random generator step (CPython uses a Mersenne
twister; a linear congruential step stands in for it — the claims depend
only on the step being a deterministic state transition). -/
def lcgNext (state : ℕ) : ℕ := (state * 1103515245 + 12345) % 4294967296

/-- Exchange the elements at positions `i` and `j` of a list (Python
`x[i], x[j] = x[j], x[i]` inside `random.shuffle`). -/
def listSwap {α : Type} (l : List α) (i j : ℕ) : List α :=
  match l[i]?, l[j]? with
  | some a, some b => (l.set i b).set j a
  | _, _ => l

/-- The Fisher-Yates loop of Python `random.shuffle`: for `i` from
`len - 1` down to `1`, draw `j` from `[0, i]` and swap positions `i` and
`j`.  The first argument is the current value of `i`, the second the
generator state. -/
def shuffleAux {α : Type} : ℕ → ℕ → List α → List α
  | 0, _st, l => l
  | Nat.succ k, st, l =>
    let st2 := lcgNext st
    let j := st2 % (k + 2)
    shuffleAux k st2 (listSwap l (k + 1) j)

/-- Model of `random.seed(seed)` followed by `random.shuffle(l)`: a
deterministic permutation of `l` computed from the seeded state. -/
def pyShuffle {α : Type} (l : List α) (seed : ℕ) : List α :=
  shuffleAux (l.length - 1) seed l

/-- The generator state left behind by the shuffle's draws (one step per
loop iteration), for the global-state bookkeeping of
`generate_color_grid`. -/
def shuffleStateAux (st : ℕ) : ℕ → ℕ
  | 0 => st
  | Nat.succ k => shuffleStateAux (lcgNext st) k

/-- Constant `OPACITY` from `texture_color_grid.py`. -/
def OPACITY : ℚ := 6 / 10

/-- Constant `BLEND_MODE` from `texture_color_grid.py`. -/
def BLEND_MODE : String := "overlay"

/-- The colour order used by `generate_color_grid`: the colour names
shuffled under the state seeded from the texture name's prefix
(`random.seed(prefix)` followed by `random.shuffle`). -/
def random_color_names (texture_name : String) : List String :=
  pyShuffle get_color_names (seedOfString ( get_texture_prefix texture_name))

/-- One grid row's cell in `generate_color_grid`: look the colour up and
composite it over the base texture with the fixed opacity and blend mode
(both steps sit inside the loop's `try`, so either failure skips the
row). -/
def colorGridCell (base : Image) (color_name : String) : Except String Image :=
  match get_color color_name with
  | some c => blend_texture_with_neon base c OPACITY BLEND_MODE
  | none => .error "unknown color"

/-- The `for row, color_name in enumerate(random_color_names)` loop of
`generate_color_grid`: paste each successfully blended row at vertical
offset `row * cell_height` (using the blended image itself as paste
mask); a failed row Is skipped and the canvas left as it was. -/
def colorGridRows (base : Image) (cell_height : ℕ) :
    Image → ℕ → List String → Image
  | grid, _, [] => grid
  | grid, row, color_name :: rest =>
    let grid2 :=
      match colorGridCell base color_name with
      | .ok blended => pasteMask grid blended 0 (row * cell_height)
      | .error _ => grid
    colorGridRows base cell_height grid2 (row + 1) rest

/-- Function `generate_color_grid(texture_name)` from `texture_color_grid.py`,
parametrised by the already-loaded base texture: a transparent canvas of
one column and one row per colour, each row blended with the next colour
of the prefix-seeded order.  (The `os.path.exists` check and the prints
are I/O and not modelled.) -/
def generate_color_grid (texture_name : String) (base_texture : Image) : Image :=
  let cell_width := base_texture.width
  let cell_height := base_texture.height
  let grid0 := Image.new cell_width (cell_height * get_color_names.length) ⟨0, 0, 0, 0⟩
  colorGridRows base_texture cell_height grid0 0 (random_color_names texture_name)

/-- The effect of `generate_color_grid` on the global random-generator
state, mirroring its random calls line by line: `random.seed(prefix)`
replaces the state `pre` with the prefix-seeded state, `random.shuffle`
advances it once per loop iteration, and the final bare `random.seed()`
replaces it with a state derived from fresh OS entropy (modelled as the
parameter `entropy`). -/
def rngStateAfterGrid (texture_name : String) (pre entropy : ℕ) : ℕ :=
  let s0 := pre
  let s1 := seedOfString ( get_texture_prefix texture_name)
  let s2 := shuffleStateAux s1 (get_color_names.length - 1)
  let s3 := entropy
  s3

/-! ## `texture_grid_generator.py` -/

/-- Constant `BLEND_MODES` from `texture_grid_generator.py`. -/
def BLEND_MODES : List String := ["screen", "overlay", "multiply", "normal"]

/-- Constant `OPACITY_LEVELS` from `texture_grid_generator.py`: 0.1 through 0.9. -/
def OPACITY_LEVELS : List ℚ :=
  [1/10, 2/10, 3/10, 4/10, 5/10, 6/10, 7/10, 8/10, 9/10]

/-- Constant `SCALE_FACTOR` from `texture_grid_generator.py`. -/
def SCALE_FACTOR : ℕ := 8

/-- Constant `CELL_PADDING` from `texture_grid_generator.py`. -/
def CELL_PADDING : ℕ := 4

/-- Constant `LABEL_HEIGHT` from `texture_grid_generator.py`. -/
def LABEL_HEIGHT : ℕ := 20

/-- Function `scale_image_nearest(image, scale_factor)` from
`texture_grid_generator.py`: the `(width * f, height * f)` nearest
neighbour resize; for an integer upscale every output pixel is the exact
copy of the source pixel at the integer-divided coordinates. -/
def scale_image_nearest (image : Image) (scale_factor : ℕ) : Image :=
  ⟨image.width * scale_factor, image.height * scale_factor,
   fun x y => image.pixel (x / scale_factor) (y / scale_factor)⟩

/-- Geometry model of `create_text_label(text, width, height)`: the
width×height label tile with its dark background fill.  The rendered
glyph pixels are not modelled (the spec calls font rendering a cosmetic,
non-correctness-critical path, and no claim touches label contents). -/
def create_text_label (width height : ℕ) : Image :=
  Image.new width height ⟨40, 40, 40, 255⟩

/-- The horizontal paste position of the cell in column `col`
(`x = 100 + col * (cell_width + CELL_PADDING) + CELL_PADDING` in
`generate_texture_grid`). -/
def texture_grid_cell_x (cell_width col : ℕ) : ℕ :=
  100 + col * (cell_width + CELL_PADDING) + CELL_PADDING

/-- The vertical paste position of the cell in row `row`
(`y = LABEL_HEIGHT + 30 + row * (cell_height + CELL_PADDING) + CELL_PADDING`). -/
def texture_grid_cell_y (cell_height row : ℕ) : ℕ :=
  LABEL_HEIGHT + 30 + row * (cell_height + CELL_PADDING) + CELL_PADDING

/-- Left fold pasting a list of `(image, x, y)` jobs onto a canvas with
the image itself as mask — the paste sequence of the grid builders. -/
def pasteMany (grid : Image) (jobs : List (Image × ℕ × ℕ)) : Image :=
  jobs.foldl (fun g job => pasteMask g job.1 job.2.1 job.2.2) grid

/-- The column-label pastes of `generate_texture_grid` (one 40×20 label
per opacity level along the top edge). -/
def gridColumnLabels (cell_width : ℕ) : List (Image × ℕ × ℕ) :=
  OPACITY_LEVELS.enum.map (fun co =>
    (create_text_label 40 LABEL_HEIGHT,
     100 + co.1 * (cell_width + CELL_PADDING) + CELL_PADDING + cell_width / 2 - 20, 5))

/-- The row-label pastes of `generate_texture_grid` (one 90×20 label per
blend mode along the left edge). -/
def gridRowLabels (cell_height : ℕ) : List (Image × ℕ × ℕ) :=
  BLEND_MODES.enum.map (fun rm =>
    (create_text_label 90 20, 5,
     LABEL_HEIGHT + 30 + rm.1 * (cell_height + CELL_PADDING) + CELL_PADDING + cell_height / 2 - 10))

/-- The cell pastes of `generate_texture_grid`: for every
`(row, blend_mode)` and `(col, opacity)` pair, blend the base texture,
upscale the result and record it with its computed paste position; a
failed cell is skipped (`try`/`continue`). -/
def textureGridCellPastes (base : Image) (color : ℕ × ℕ × ℕ) : List (Image × ℕ × ℕ) :=
  let scaled_w := base.width * SCALE_FACTOR
  let scaled_h := base.height * SCALE_FACTOR
  BLEND_MODES.enum.flatMap (fun rm =>
    OPACITY_LEVELS.enum.filterMap (fun co =>
      match blend_texture_with_neon base color co.2 rm.2 with
      | .ok blended =>
        some (scale_image_nearest blended SCALE_FACTOR,
              texture_grid_cell_x scaled_w co.1, texture_grid_cell_y scaled_h rm.1)
      | .error _ => none))

/-- Function `generate_texture_grid(texture_name, color_name)` from
`texture_grid_generator.py`, parametrised by the loaded base texture and
resolved colour: the dark canvas sized from the 8× upscaled cell, with
the column labels, row labels and all blend-mode × opacity cells pasted
at their computed offsets. -/
def generate_texture_grid (base_texture : Image) (color : ℕ × ℕ × ℕ) : Image :=
  let scaled_w := base_texture.width * SCALE_FACTOR
  let scaled_h := base_texture.height * SCALE_FACTOR
  let total_width := (scaled_w + CELL_PADDING) * OPACITY_LEVELS.length + CELL_PADDING + 100
  let total_height := (scaled_h + CELL_PADDING) * BLEND_MODES.length + CELL_PADDING + LABEL_HEIGHT + 30
  let grid0 := Image.new total_width total_height ⟨20, 20, 20, 255⟩
  pasteMany grid0
    (gridColumnLabels scaled_w ++ gridRowLabels scaled_h ++ textureGridCellPastes base_texture color)

/-! ## `save_image` from `neon_texture_overlay.py` -/

/-- Split a path into the part up to and including the last slash and
the basename after it. -/
def splitLastSlash (cs : List Char) : List Char × List Char :=
  let baseRev := cs.reverse.takeWhile (fun c => c ≠ '/')
  (cs.take (cs.length - baseRev.length), baseRev.reverse)

/-- Split a basename at its last dot, provided some earlier character of
the basename is not a dot (the `os.path.splitext` rule that makes
leading dots part of the root). -/
def extSplitBase (base : List Char) : List Char × List Char :=
  let extRev := base.reverse.takeWhile (fun c => c ≠ '.')
  if extRev.length = base.length then (base, [])
  else
    let k := base.length - extRev.length - 1
    if (base.take k).any (fun c => c ≠ '.') then (base.take k, base.drop k)
    else (base, [])

/-- Python `os.path.splitext(path)`: the root and the extension (including its
dot). -/
def splitext (path : String) : String × String :=
  let dir_base := splitLastSlash path.toList
  let root_ext := extSplitBase dir_base.2
  (String.mk (dir_base.1 ++ root_ext.1), String.mk root_ext.2)

/-- The JPEG branch of `save_image`: a white RGB canvas with the image
pasted on it using its own alpha band as mask (alpha forced opaque in the
flattened result). -/
def flattenOnWhite (image : Image) : Image :=
  ⟨image.width, image.height, fun x y =>
    let p := image.pixel x y
    ⟨muldiv255 255 (255 - p.a) + muldiv255 p.r p.a,
     muldiv255 255 (255 - p.a) + muldiv255 p.g p.a,
     muldiv255 255 (255 - p.a) + muldiv255 p.b p.a, 255⟩⟩

/-- The file `save_image` writes: which format, to which path, which
pixel payload (and, for JPEG, with which quality). -/
inductive SavedFile where
  | png (path : String) (image : Image)
  | jpeg (path : String) (image : Image) (quality : ℕ)

/-- Whether a saved file was written in PNG format. -/
def SavedFile.isPng : SavedFile → Bool
  | .png _ _ => true
  | .jpeg _ _ _ => false

/-- The path a saved file was written to. -/
def SavedFile.path : SavedFile → String
  | .png p _ => p
  | .jpeg p _ _ => p

/-- Function `save_image(image, output_path, quality)` from
`neon_texture_overlay.py`: `.jpg`/`.jpeg` extensions (lower-cased) save a
JPEG of the white-flattened image, `.png` saves the image as PNG, and any
other extension is rewritten to `.png` and saved as PNG.  (Directory
creation is I/O and not modelled.) -/
def save_image (image : Image) (output_path : String) (quality : ℕ := 95) : SavedFile :=
  if strToLower (splitext output_path).2 = ".jpg" ∨ strToLower (splitext output_path).2 = ".jpeg" then
    .jpeg output_path (flattenOnWhite image) quality
  else if strToLower (splitext output_path).2 = ".png" then
    .png output_path image
  else
    .png ((splitext output_path).1 ++ ".png") image

/-! ## Decidability helper -/

instance {α β : Type} [DecidableEq α] [DecidableEq β] : DecidableEq (Except α β) := fun x y =>
  match x, y with
  | .ok a, .ok b => decidable_of_iff (a = b) (by simp)
  | .error a, .error b => decidable_of_iff (a = b) (by simp)
  | .ok _, .error _ => isFalse (by simp)
  | .error _, .ok _ => isFalse (by simp)

/-! ## Definitions following the specification's wording

These restate, in the spec's own terms, the operations the claims
describe; the claim theorems compare them with the source embedding
above. -/

/-- Spec §4.1 wording for `screen`/`multiply`: "per-pixel linear
interpolation between source and overlay channel values by factor t",
`(1 - t) * source + t * overlay`, truncated to an 8-bit channel. -/
def specLerpChan (s v : ℕ) (t : ℚ) : ℕ :=
  if (1 - t) * (s : ℚ) + t * (v : ℚ) ≤ 0 then 0
  else if 255 ≤ (1 - t) * (s : ℚ) + t * (v : ℚ) then 255
  else (⌊(1 - t) * (s : ℚ) + t * (v : ℚ)⌋).toNat

/-- Spec §4.1 linear interpolation applied to every channel of a pixel. -/
def specLerpPixel (s v : RGBA) (t : ℚ) : RGBA :=
  ⟨specLerpChan s.r v.r t, specLerpChan s.g v.g t,
   specLerpChan s.b v.b t, specLerpChan s.a v.a t⟩

/-- Spec §4.1 wording for the brightness boost on one colour channel: the
channel scaled by the constant gain 1.5 and clamped to 255. -/
def specBrightenChan (v : ℕ) : ℕ :=
  min 255 (⌊(3 / 2 : ℚ) * (v : ℚ)⌋).toNat

/-- Spec §4.1 wording for the brightness boost on a pixel: the fixed
1.5× gain applied to the RGB channels, the alpha channel preserved. -/
def specBrightenPixel (p : RGBA) : RGBA :=
  ⟨specBrightenChan p.r, specBrightenChan p.g, specBrightenChan p.b, p.a⟩

/-- Spec §4.1 wording for the overlay layer's pixel: the requested RGB
colour with alpha `int(opacity * 255)`. -/
def specOverlayPixel (c : ℕ × ℕ × ℕ) (opacity : ℚ) : RGBA :=
  ⟨c.1, c.2.1, c.2.2, (⌊opacity * 255⌋).toNat⟩

/-- Claim C10's wording for the prefix computation: among the
`BLOCK_GROUPS` entries that start with the texture name's first
underscore-delimited token, take the first and return its own first
token; if none matches, return the full texture name. -/
def c10SpecPrefix (texture_name : String) : String :=
  match (BLOCK_GROUPS.filter (fun group => strStartsWith group (firstToken texture_name))).head? with
  | some group => firstToken group
  | none => texture_name

/-- Spec §8 name for the width of the left label strip of the parameter
grid. -/
def labelStripWidth : ℕ := 100

/-- Spec §8 column count of the parameter grid (one column per opacity
level). -/
def gridColumns : ℕ := 9

/-- Spec §4.3 fixed pixel padding between parameter-grid cells. -/
def gridPadding : ℕ := 4

/-- Spec §4.3 fixed nearest-neighbour upscale factor of the parameter
grid. -/
def upscaleFactor : ℕ := 8

/-- A 1×1 fully transparent source texture (counterexample input). -/
def transparent1 : Image := Image.new 1 1 ⟨0, 0, 0, 0⟩

/-! ## Helper lemmas -/

theorem list_find?_eq_head?_filter {α : Type} (p : α → Bool) (l : List α) :
    l.find? p = (l.filter p).head? := by
  induction l with
  | nil => rfl
  | cons a l ih =>
    by_cases h : p a
    · rw [List.find?_cons_of_pos _ h, List.filter_cons_of_pos h, List.head?_cons]
    · rw [List.find?_cons_of_neg _ (by simpa using h), List.filter_cons_of_neg (by simpa using h), ih]

theorem blendChannel_le_255 (c1 c2 : ℕ) (t : ℚ) : blendChannel c1 c2 t ≤ 255 := by
  unfold blendChannel
  split
  · omega
  · split
    · omega
    · rename_i hle hlt
      have h : ⌊(c1 : ℚ) + t * ((c2 : ℚ) - (c1 : ℚ))⌋ < (255 : ℤ) := by
        rw [Int.floor_lt]
        push_cast
        linarith [not_le.mp hlt]
      omega

theorem shiftForDiv255_mono {x y : ℕ} (h : x ≤ y) : shiftForDiv255 x ≤ shiftForDiv255 y := by
  unfold shiftForDiv255
  exact Nat.div_le_div_right (Nat.add_le_add (Nat.div_le_div_right h) h)

theorem alphaCompositePixel_a_le (dst src : RGBA) (hd : dst.a ≤ 255) (hs : src.a ≤ 255) :
    (alphaCompositePixel dst src).a ≤ 255 := by
  unfold alphaCompositePixel
  split
  · exact hd
  · show shiftForDiv255 (src.a * 255 + dst.a * (255 - src.a) + 128) ≤ 255
    have hu : dst.a * (255 - src.a) ≤ 255 * (255 - src.a) :=
      Nat.mul_le_mul_right _ hd
    have hb : src.a * 255 + 255 * (255 - src.a) = 65025 := by
      have : 255 - src.a + src.a = 255 := Nat.sub_add_cancel hs
      nlinarith [this]
    have : src.a * 255 + dst.a * (255 - src.a) + 128 ≤ 65153 := by omega
    calc shiftForDiv255 (src.a * 255 + dst.a * (255 - src.a) + 128)
        ≤ shiftForDiv255 65153 := shiftForDiv255_mono this
      _ = 255 := by decide

theorem specLerpChan_eq_blendChannel (s v : ℕ) (t : ℚ) :
    specLerpChan s v t = blendChannel s v t := by
  unfold specLerpChan blendChannel
  have h : (1 - t) * (s : ℚ) + t * (v : ℚ) = (s : ℚ) + t * ((v : ℚ) - (s : ℚ)) := by ring
  rw [h]

theorem specLerpPixel_eq_blendPixel (p q : RGBA) (t : ℚ) :
    specLerpPixel p q t = blendPixel p q t := by
  unfold specLerpPixel blendPixel
  rw [specLerpChan_eq_blendChannel, specLerpChan_eq_blendChannel,
      specLerpChan_eq_blendChannel, specLerpChan_eq_blendChannel]

theorem brightnessChannel_eq_specBrightenChan (c : ℕ) :
    blendChannel 0 c (3 / 2) = specBrightenChan c := by
  unfold blendChannel specBrightenChan
  simp only [Nat.cast_zero, sub_zero, zero_add]
  rcases Nat.eq_zero_or_pos c with hc | hc
  · subst hc; norm_num
  · have hpos : (0 : ℚ) < 3 / 2 * (c : ℚ) := by positivity
    rw [if_neg (by linarith)]
    by_cases h255 : (255 : ℚ) ≤ 3 / 2 * (c : ℚ)
    · rw [if_pos h255]
      have : (255 : ℤ) ≤ ⌊3 / 2 * (c : ℚ)⌋ := by
        rw [Int.le_floor]; exact_mod_cast h255
      omega
    · rw [if_neg h255]
      have : ⌊3 / 2 * (c : ℚ)⌋ < (255 : ℤ) := by
        rw [Int.floor_lt]; push_cast; linarith [not_le.mp h255]
      omega

theorem brightnessAlpha_eq_self (a : ℕ) (ha : a ≤ 255) :
    blendChannel a a (3 / 2) = a := by
  unfold blendChannel
  simp only [sub_self, mul_zero, add_zero]
  rcases Nat.eq_zero_or_pos a with hc | hc
  · subst hc; norm_num
  · rw [if_neg (not_le.mpr (by exact_mod_cast hc))]
    by_cases h255 : (255 : ℚ) ≤ (a : ℚ)
    · have : (255 : ℕ) ≤ a := by exact_mod_cast h255
      have : a = 255 := le_antisymm ha this
      subst this
      norm_num
    · rw [if_neg h255, Int.floor_natCast, Int.toNat_natCast]

theorem brightnessPixel_eq_specBrightenPixel (p : RGBA) (ha : p.a ≤ 255) :
    brightnessPixel (3 / 2) p = specBrightenPixel p := by
  unfold brightnessPixel specBrightenPixel
  rw [brightnessChannel_eq_specBrightenChan, brightnessChannel_eq_specBrightenChan,
      brightnessChannel_eq_specBrightenChan, brightnessAlpha_eq_self p.a ha]

theorem blend_texture_with_neon_eq_ok (texture : Image) (c : ℕ × ℕ × ℕ) (o : ℚ)
    (m : String) (h0 : 0 ≤ o) (h1 : o ≤ 1) :
    blend_texture_with_neon texture c o m =
      .ok (apply_neon_glow
        (if m = "screen" then
          Image.blend texture (Image.new texture.width texture.height
            ⟨c.1, c.2.1, c.2.2, (⌊(255 : ℚ) * o⌋).toNat⟩) o
         else if m = "overlay" then
          alphaComposite texture (Image.new texture.width texture.height
            ⟨c.1, c.2.1, c.2.2, (⌊(255 : ℚ) * o⌋).toNat⟩)
         else if m = "multiply" then
          Image.blend texture (Image.new texture.width texture.height
            ⟨c.1, c.2.1, c.2.2, (⌊(255 : ℚ) * o⌋).toNat⟩) (o * (1 / 2))
         else
          alphaComposite texture (Image.new texture.width texture.height
            ⟨c.1, c.2.1, c.2.2, (⌊(255 : ℚ) * o⌋).toNat⟩)) c) := by
  unfold blend_texture_with_neon create_neon_overlay
  rw [if_pos ⟨h0, h1⟩]


theorem blend_texture_with_neon_dims {texture : Image} {c : ℕ × ℕ × ℕ} {o : ℚ}
    {m : String} {b : Image} (h : blend_texture_with_neon texture c o m = .ok b) :
    b.width = texture.width ∧ b.height = texture.height := by
  unfold blend_texture_with_neon at h
  cases hov : create_neon_overlay (texture.width, texture.height) c o with
  | error e => rw [hov] at h; exact absurd h (by simp)
  | ok ov =>
    rw [hov] at h
    simp only [Except.ok.injEq] at h
    subst h
    constructor
    · show (if m = "screen" then Image.blend texture ov o
            else if m = "overlay" then alphaComposite texture ov
            else if m = "multiply" then Image.blend texture ov (o * (1 / 2))
            else alphaComposite texture ov).width = texture.width
      split
      · rfl
      · split
        · rfl
        · split
          · rfl
          · rfl
    · show (if m = "screen" then Image.blend texture ov o
            else if m = "overlay" then alphaComposite texture ov
            else if m = "multiply" then Image.blend texture ov (o * (1 / 2))
            else alphaComposite texture ov).height = texture.height
      split
      · rfl
      · split
        · rfl
        · split
          · rfl
          · rfl

theorem colorGridCell_dims {base : Image} {n : String} {b : Image}
    (h : colorGridCell base n = .ok b) : b.width = base.width ∧ b.height = base.height := by
  unfold colorGridCell at h
  cases hg : get_color n with
  | none => rw [hg] at h; exact absurd h (by simp)
  | some c => rw [hg] at h; exact blend_texture_with_neon_dims h

theorem colorGridRows_width (base : Image) (ch : ℕ) :
    ∀ (names : List String) (grid : Image) (row : ℕ),
      (colorGridRows base ch grid row names).width = grid.width := by
  intro names
  induction names with
  | nil => intro grid row; rfl
  | cons n rest ih =>
    intro grid row
    rw [colorGridRows]
    cases colorGridCell base n with
    | ok b => dsimp only; rw [ih]; rfl
    | error e => dsimp only; rw [ih]

theorem colorGridRows_height (base : Image) (ch : ℕ) :
    ∀ (names : List String) (grid : Image) (row : ℕ),
      (colorGridRows base ch grid row names).height = grid.height := by
  intro names
  induction names with
  | nil => intro grid row; rfl
  | cons n rest ih =>
    intro grid row
    rw [colorGridRows]
    cases colorGridCell base n with
    | ok b => dsimp only; rw [ih]; rfl
    | error e => dsimp only; rw [ih]

theorem colorGridRows_pixel_below (base : Image) (ch : ℕ) :
    ∀ (names : List String) (grid : Image) (r x t : ℕ), t < r * ch →
      (colorGridRows base ch grid r names).pixel x t = grid.pixel x t := by
  intro names
  induction names with
  | nil => intros; rfl
  | cons n rest ih =>
    intro grid r x t ht
    have hrec : t < (r + 1) * ch := lt_of_lt_of_le ht (Nat.mul_le_mul_right ch (Nat.le_succ r))
    rw [colorGridRows]
    cases colorGridCell base n with
    | ok b =>
      dsimp only
      rw [ih _ (r + 1) x t hrec]
      simp only [pasteMask]
      rw [if_neg]
      intro hcond
      exact absurd hcond.2.2.1 (by omega)
    | error e =>
      dsimp only
      rw [ih _ (r + 1) x t hrec]

theorem colorGridRows_pixel_row (base : Image) (ch : ℕ) (hch : ch = base.height) :
    ∀ (names : List String) (grid : Image) (r k x y : ℕ),
      k < names.length → x < base.width → y < ch →
      (colorGridRows base ch grid r names).pixel x ((r + k) * ch + y) =
        (match colorGridCell base (names.getD k "") with
         | .ok b => pasteMaskPixel (grid.pixel x ((r + k) * ch + y)) (b.pixel x y)
         | .error _ => grid.pixel x ((r + k) * ch + y)) := by
  intro names
  induction names with
  | nil => intro grid r k x y hk; exact absurd hk (by simp)
  | cons n rest ih =>
    intro grid r k x y hk hx hy
    match k with
    | 0 =>
      simp only [List.getD_cons_zero, Nat.add_zero]
      rw [colorGridRows]
      have hlt : r * ch + y < (r + 1) * ch := by
        have h1 : (r + 1) * ch = r * ch + ch := by ring
        omega
      cases hc : colorGridCell base n with
      | ok b =>
        obtain ⟨hbw, hbh⟩ := colorGridCell_dims hc
        dsimp only
        rw [colorGridRows_pixel_below base ch rest _ (r + 1) x _ hlt]
        simp only [pasteMask]
        rw [if_pos]
        · simp only [Nat.sub_zero]
          have h2 : r * ch + y - r * ch = y := by omega
          rw [h2]
        · refine ⟨Nat.zero_le x, ?_, Nat.le_add_right _ _, ?_⟩
          · rw [hbw]; omega
          · rw [hbh, ← hch]; omega
      | error e =>
        dsimp only
        rw [colorGridRows_pixel_below base ch rest _ (r + 1) x _ hlt]
    | Nat.succ k =>
      simp only [List.getD_cons_succ]
      have hidx : (r + (k + 1)) * ch + y = ((r + 1) + k) * ch + y := by ring_nf
      rw [colorGridRows, hidx]
      have hk2 : k < rest.length := by simpa using hk
      cases hc : colorGridCell base n with
      | ok b =>
        obtain ⟨hbw, hbh⟩ := colorGridCell_dims hc
        dsimp only
        rw [ih _ (r + 1) k x y hk2 hx hy]
        have hout : ((r + 1) + k) * ch + y ≥ r * ch + ch := by
          have h1 : ((r + 1) + k) * ch = r * ch + ch + k * ch := by ring
          omega
        have hpix : (pasteMask grid b 0 (r * ch)).pixel x (((r + 1) + k) * ch + y) =
            grid.pixel x (((r + 1) + k) * ch + y) := by
          simp only [pasteMask]
          rw [if_neg]
          intro hcond
          have h3 := hcond.2.2.2
          rw [hbh, ← hch] at h3
          omega
        rw [hpix]
      | error e =>
        dsimp only
        rw [ih _ (r + 1) k x y hk2 hx hy]

theorem listSwap_length {α : Type} (l : List α) (i j : ℕ) :
    (listSwap l i j).length = l.length := by
  unfold listSwap
  cases l[i]? <;> cases l[j]? <;> simp

theorem shuffleAux_length {α : Type} :
    ∀ (n : ℕ) (st : ℕ) (l : List α), (shuffleAux n st l).length = l.length := by
  intro n
  induction n with
  | zero => intros; rfl
  | succ k ih =>
    intro st l
    rw [shuffleAux]
    rw [ih, listSwap_length]

theorem random_color_names_length (texture_name : String) :
    (random_color_names texture_name).length = 10 := by
  unfold random_color_names pyShuffle
  rw [shuffleAux_length]
  rfl

theorem pasteMany_width :
    ∀ (jobs : List (Image × ℕ × ℕ)) (grid : Image),
      (pasteMany grid jobs).width = grid.width := by
  intro jobs
  induction jobs with
  | nil => intro grid; rfl
  | cons j rest ih =>
    intro grid
    have h := ih (pasteMask grid j.1 j.2.1 j.2.2)
    simpa [pasteMany] using h

/-! ## Claim theorems -/

/-- C1 counterexample: the compositor does not desaturate.  For the
16×16 fully opaque red source, cyan overlay, opacity 0.3 and mode
screen, the top-left output RGB of `blend_texture_with_neon` differs
from the value the claim asserts, namely the same pipeline run on the
desaturated source. -/
theorem C1_counterexample :
    (blend_texture_with_neon red16 (0, 255, 255) (3 / 10) "screen").map
        (fun im => ((im.pixel 0 0).r, (im.pixel 0 0).g, (im.pixel 0 0).b)) ≠
      (blend_texture_with_neon (desaturate red16) (0, 255, 255) (3 / 10) "screen").map
        (fun im => ((im.pixel 0 0).r, (im.pixel 0 0).g, (im.pixel 0 0).b)) := by
  with_unfolding_all decide

/-- C1 amended: `blend_texture_with_neon` applies no desaturation — the
source image's channels enter the blend unchanged.  For the 16×16 fully
opaque red source with cyan, opacity 0.3 and mode screen, the top-left
output pixel equals the linear interpolation of the unmodified red pixel
with the cyan overlay by factor 0.3, then brightened by the fixed 1.5
glow factor: RGBA (255, 114, 114, 201). -/
theorem C1_amended_no_desaturation :
    (blend_texture_with_neon red16 (0, 255, 255) (3 / 10) "screen").map
        (fun im => im.pixel 0 0) = .ok ⟨255, 114, 114, 201⟩ ∧
    specBrightenPixel (specLerpPixel (red16.pixel 0 0)
        (specOverlayPixel (0, 255, 255) (3 / 10)) (3 / 10)) = ⟨255, 114, 114, 201⟩ :=
  ⟨by with_unfolding_all decide, by with_unfolding_all decide⟩

/-- C3: for every opacity strictly below 0.0 or strictly above 1.0 and
all other inputs, the compositor fails inside `create_neon_overlay` with
the `ValueError` message and `blend_texture_with_neon` propagates the
error, producing no output image (no silent clamping). -/
theorem C3_invalid_opacity_fails (o : ℚ) (h : o < 0 ∨ 1 < o) (size : ℕ × ℕ)
    (c : ℕ × ℕ × ℕ) (texture : Image) (mode : String) :
    create_neon_overlay size c o = .error "Opacity must be between 0.0 and 1.0" ∧
    blend_texture_with_neon texture c o mode = .error "Opacity must be between 0.0 and 1.0" := by
  have hneg : ¬(0 ≤ o ∧ o ≤ 1) := by
    rcases h with h | h
    · exact fun hc => absurd hc.1 (not_le.mpr h)
    · exact fun hc => absurd hc.2 (not_le.mpr h)
  refine ⟨?_, ?_⟩
  · unfold create_neon_overlay
    rw [if_neg hneg]
  · unfold blend_texture_with_neon create_neon_overlay
    rw [if_neg hneg]

/-- C3 witness: opacity 2 is rejected with the `ValueError` on a
concrete 16×16 texture. -/
theorem C3_invalid_opacity_fails_witness :
    ((2 : ℚ) < 0 ∨ 1 < (2 : ℚ)) ∧
    (create_neon_overlay (16, 16) (0, 255, 255) 2 = .error "Opacity must be between 0.0 and 1.0" ∧
     blend_texture_with_neon red16 (0, 255, 255) 2 "screen" =
       .error "Opacity must be between 0.0 and 1.0") :=
  ⟨Or.inr (by norm_num),
   C3_invalid_opacity_fails 2 (Or.inr (by norm_num)) (16, 16) (0, 255, 255) red16 "screen"⟩

/-- C5: the adopted policy for a blend-mode tag outside the four
enumerated ones is the claim's second branch — `blend_texture_with_neon`
defaults the unknown tag to the `normal` branch, so its result is
pixel-identical to the result for mode normal. -/
theorem C5_unknown_mode_defaults_to_normal (texture : Image) (c : ℕ × ℕ × ℕ) (o : ℚ)
    (mode : String) (h : mode ∉ ["screen", "overlay", "multiply", "normal"]) :
    blend_texture_with_neon texture c o mode = blend_texture_with_neon texture c o "normal" := by
  have h1 : ¬(mode = "screen") := fun e => h (by rw [e]; simp)
  have h2 : ¬(mode = "overlay") := fun e => h (by rw [e]; simp)
  have h3 : ¬(mode = "multiply") := fun e => h (by rw [e]; simp)
  unfold blend_texture_with_neon
  cases create_neon_overlay (texture.width, texture.height) c o with
  | error e => rfl
  | ok ov =>
    dsimp only
    rw [if_neg h1, if_neg h2, if_neg h3,
        if_neg (show ¬("normal" = "screen") by decide),
        if_neg (show ¬("normal" = "overlay") by decide),
        if_neg (show ¬("normal" = "multiply") by decide)]

/-- C5 witness: the unrecognized tag glow produces the same image as
mode normal on a concrete input. -/
theorem C5_unknown_mode_witness :
    ("glow" ∉ ["screen", "overlay", "multiply", "normal"]) ∧
    blend_texture_with_neon red16 (0, 255, 255) (3 / 10) "glow" =
      blend_texture_with_neon red16 (0, 255, 255) (3 / 10) "normal" :=
  ⟨by decide, C5_unknown_mode_defaults_to_normal red16 (0, 255, 255) (3 / 10) "glow" (by decide)⟩

/-- C6 counterexample: `generate_color_grid` does not restore the global
random state.  Starting from state 5, with OS entropy 7 feeding the
final bare `random.seed()`, the state after the call is not 5. -/
theorem C6_counterexample : rngStateAfterGrid "stone" 5 7 ≠ 5 := by decide

/-- C6 amended: after the prefix-seeded shuffle, `generate_color_grid`
re-seeds the global generator from fresh OS entropy (`random.seed()`
with no argument); the state after the call is the entropy-derived state
and is independent of the pre-call state — the exact prior state is not
restored. -/
theorem C6_amended_state_reseeded (texture_name : String) (pre pre2 entropy : ℕ) :
    rngStateAfterGrid texture_name pre entropy = entropy ∧
    rngStateAfterGrid texture_name pre entropy = rngStateAfterGrid texture_name pre2 entropy :=
  ⟨rfl, rfl⟩

/-- C7: two texture names with the same `get_texture_prefix` yield the
identical shuffled colour order, because the shuffle is seeded
deterministically from that prefix. -/
theorem C7_same_prefix_same_order (n1 n2 : String)
    (h : get_texture_prefix n1 = get_texture_prefix n2) :
    random_color_names n1 = random_color_names n2 := by
  unfold random_color_names
  rw [h]

/-- C7 witness: log_oak and log_spruce share the prefix log and get the
same colour order. -/
theorem C7_same_prefix_same_order_witness :
    get_texture_prefix "log_oak" = get_texture_prefix "log_spruce" ∧
    random_color_names "log_oak" = random_color_names "log_spruce" :=
  ⟨by decide, C7_same_prefix_same_order "log_oak" "log_spruce" (by decide)⟩

/-- C9 counterexample: `save_image` does not force PNG for every
requested extension — a path ending in .jpg is written as JPEG. -/
theorem C9_counterexample : (save_image transparent1 "out.jpg" 95).isPng = false := by
  decide

/-- C9 amended: `save_image` writes JPEG (flattened on white) when the
lower-cased extension is .jpg or .jpeg; for .png it writes PNG to the
requested path; for every other extension it rewrites the extension to
.png and writes PNG. -/
theorem C9_amended_save_format (image : Image) (path : String) (quality : ℕ) :
    (strToLower (splitext path).2 = ".jpg" ∨ strToLower (splitext path).2 = ".jpeg" →
      save_image image path quality = .jpeg path (flattenOnWhite image) quality) ∧
    (strToLower (splitext path).2 ≠ ".jpg" → strToLower (splitext path).2 ≠ ".jpeg" →
      (save_image image path quality).isPng = true ∧
      (save_image image path quality).path =
        (if strToLower (splitext path).2 = ".png" then path
         else (splitext path).1 ++ ".png")) := by
  constructor
  · intro h
    unfold save_image
    rw [if_pos h]
  · intro h1 h2
    unfold save_image
    rw [if_neg (not_or.mpr ⟨h1, h2⟩)]
    by_cases hp : strToLower (splitext path).2 = ".png"
    · rw [if_pos hp, if_pos hp]
      exact ⟨rfl, rfl⟩
    · rw [if_neg hp, if_neg hp]
      exact ⟨rfl, rfl⟩

/-- C9 witness: a .gif request is written as PNG with the extension
rewritten to .png. -/
theorem C9_amended_save_format_witness :
    (strToLower (splitext "out.gif").2 ≠ ".jpg" ∧ strToLower (splitext "out.gif").2 ≠ ".jpeg") ∧
    ((save_image transparent1 "out.gif" 95).isPng = true ∧
     (save_image transparent1 "out.gif" 95).path =
       (if strToLower (splitext "out.gif").2 = ".png" then "out.gif"
        else (splitext "out.gif").1 ++ ".png")) :=
  ⟨⟨by decide, by decide⟩,
   (C9_amended_save_format transparent1 "out.gif" 95).2 (by decide) (by decide)⟩

/-- C10: `get_texture_prefix` returns the first underscore-delimited
token of the first `BLOCK_GROUPS` entry that starts with the texture
name's own first token, and the full name when none matches; in
particular the name be_lamp, whose first token be is merely a string
prefix of the entry bed, is classified into the bed group. -/
theorem C10_prefix_rule :
    (∀ texture_name, get_texture_prefix texture_name = c10SpecPrefix texture_name) ∧
    get_texture_prefix "be_lamp" = "bed" := by
  constructor
  · intro n
    unfold get_texture_prefix c10SpecPrefix
    rw [list_find?_eq_head?_filter]
  · decide

theorem overlayAlpha_le_255 (o : ℚ) (h1 : o ≤ 1) : (⌊(255 : ℚ) * o⌋).toNat ≤ 255 := by
  have hmul : (255 : ℚ) * o ≤ 255 := by nlinarith
  have hfl : ⌊(255 : ℚ) * o⌋ ≤ 255 := by
    rw [Int.floor_le_iff]
    push_cast
    linarith
  omega

/-- C2: for every source image, colour, opacity in the valid range and
8-bit source alpha, the compositor's per-pixel behaviour per blend mode:
screen is the linear interpolation by factor opacity, multiply the same
interpolation with effective factor opacity/2, overlay and normal the
standard alpha-composite of the overlay (whose alpha is
int(opacity * 255)) over the source, and in every case the combined
result is then brightened by the fixed constant gain 1.5 (RGB scaled and
clamped, alpha preserved). -/
theorem C2_blend_mode_semantics (texture : Image) (c : ℕ × ℕ × ℕ) (o : ℚ) (x y : ℕ)
    (h0 : 0 ≤ o) (h1 : o ≤ 1) (ha : (texture.pixel x y).a ≤ 255) :
    ((blend_texture_with_neon texture c o "screen").map (fun im => im.pixel x y) =
       .ok (specBrightenPixel (specLerpPixel (texture.pixel x y) (specOverlayPixel c o) o))) ∧
    ((blend_texture_with_neon texture c o "multiply").map (fun im => im.pixel x y) =
       .ok (specBrightenPixel (specLerpPixel (texture.pixel x y) (specOverlayPixel c o) (o / 2)))) ∧
    ((blend_texture_with_neon texture c o "overlay").map (fun im => im.pixel x y) =
       .ok (specBrightenPixel (alphaCompositePixel (texture.pixel x y) (specOverlayPixel c o)))) ∧
    ((blend_texture_with_neon texture c o "normal").map (fun im => im.pixel x y) =
       .ok (specBrightenPixel (alphaCompositePixel (texture.pixel x y) (specOverlayPixel c o)))) := by
  have hcomm : (⌊(255 : ℚ) * o⌋).toNat = (⌊o * 255⌋).toNat := by rw [mul_comm]
  have hov : specOverlayPixel c o = ⟨c.1, c.2.1, c.2.2, (⌊(255 : ℚ) * o⌋).toNat⟩ := by
    unfold specOverlayPixel
    rw [hcomm]
  have hovA : (⌊(255 : ℚ) * o⌋).toNat ≤ 255 := overlayAlpha_le_255 o h1
  refine ⟨?_, ?_, ?_, ?_⟩
  · have hmode := blend_texture_with_neon_eq_ok texture c o "screen" h0 h1
    rw [if_pos rfl] at hmode
    rw [hmode]
    show Except.ok (brightnessPixel (3 / 2)
        (blendPixel (texture.pixel x y) ⟨c.1, c.2.1, c.2.2, (⌊(255 : ℚ) * o⌋).toNat⟩ o)) = _
    rw [hov, ← specLerpPixel_eq_blendPixel,
        brightnessPixel_eq_specBrightenPixel _ (by
          rw [specLerpPixel_eq_blendPixel]
          exact blendChannel_le_255 _ _ _)]
  · have hmode := blend_texture_with_neon_eq_ok texture c o "multiply" h0 h1
    rw [if_neg (show ¬("multiply" = "screen") by decide),
        if_neg (show ¬("multiply" = "overlay") by decide),
        if_pos rfl] at hmode
    rw [hmode]
    show Except.ok (brightnessPixel (3 / 2)
        (blendPixel (texture.pixel x y) ⟨c.1, c.2.1, c.2.2, (⌊(255 : ℚ) * o⌋).toNat⟩ (o * (1 / 2)))) = _
    have hhalf : o * (1 / 2) = o / 2 := by ring
    rw [hhalf, hov, ← specLerpPixel_eq_blendPixel,
        brightnessPixel_eq_specBrightenPixel _ (by
          rw [specLerpPixel_eq_blendPixel]
          exact blendChannel_le_255 _ _ _)]
  · have hmode := blend_texture_with_neon_eq_ok texture c o "overlay" h0 h1
    rw [if_neg (show ¬("overlay" = "screen") by decide), if_pos rfl] at hmode
    rw [hmode]
    show Except.ok (brightnessPixel (3 / 2)
        (alphaCompositePixel (texture.pixel x y) ⟨c.1, c.2.1, c.2.2, (⌊(255 : ℚ) * o⌋).toNat⟩)) = _
    rw [hov, brightnessPixel_eq_specBrightenPixel _ (alphaCompositePixel_a_le _ _ ha hovA)]
  · have hmode := blend_texture_with_neon_eq_ok texture c o "normal" h0 h1
    rw [if_neg (show ¬("normal" = "screen") by decide),
        if_neg (show ¬("normal" = "overlay") by decide),
        if_neg (show ¬("normal" = "multiply") by decide)] at hmode
    rw [hmode]
    show Except.ok (brightnessPixel (3 / 2)
        (alphaCompositePixel (texture.pixel x y) ⟨c.1, c.2.1, c.2.2, (⌊(255 : ℚ) * o⌋).toNat⟩)) = _
    rw [hov, brightnessPixel_eq_specBrightenPixel _ (alphaCompositePixel_a_le _ _ ha hovA)]

/-- C2 witness: the four blend-mode equalities evaluated at the 16×16
opaque red source, cyan, opacity 0.3, pixel (0, 0). -/
theorem C2_blend_mode_semantics_witness :
    (0 ≤ (3 : ℚ) / 10) ∧ ((3 : ℚ) / 10 ≤ 1) ∧ ((red16.pixel 0 0).a ≤ 255) ∧
    (((blend_texture_with_neon red16 (0, 255, 255) (3 / 10) "screen").map (fun im => im.pixel 0 0) =
        .ok (specBrightenPixel (specLerpPixel (red16.pixel 0 0)
          (specOverlayPixel (0, 255, 255) (3 / 10)) (3 / 10)))) ∧
     ((blend_texture_with_neon red16 (0, 255, 255) (3 / 10) "multiply").map (fun im => im.pixel 0 0) =
        .ok (specBrightenPixel (specLerpPixel (red16.pixel 0 0)
          (specOverlayPixel (0, 255, 255) (3 / 10)) (3 / 10 / 2)))) ∧
     ((blend_texture_with_neon red16 (0, 255, 255) (3 / 10) "overlay").map (fun im => im.pixel 0 0) =
        .ok (specBrightenPixel (alphaCompositePixel (red16.pixel 0 0)
          (specOverlayPixel (0, 255, 255) (3 / 10))))) ∧
     ((blend_texture_with_neon red16 (0, 255, 255) (3 / 10) "normal").map (fun im => im.pixel 0 0) =
        .ok (specBrightenPixel (alphaCompositePixel (red16.pixel 0 0)
          (specOverlayPixel (0, 255, 255) (3 / 10)))))) :=
  ⟨by norm_num, by norm_num, by decide,
   C2_blend_mode_semantics red16 (0, 255, 255) (3 / 10) 0 0 (by norm_num) (by norm_num) (by decide)⟩

/-- C4 counterexample: a grid row does not equal the composite output.
For a 1×1 fully transparent source, the top-left pixel of the first row
of `generate_color_grid` differs from the corresponding pixel of
`composite(source, colorOrder[0], 0.6, overlay)`: the paste re-blends
the composite with the transparent canvas through the composite's own
alpha mask. -/
theorem C4_counterexample :
    (generate_color_grid "stone" transparent1).pixel 0 0 ≠
      (match colorGridCell transparent1 ((random_color_names "stone").getD 0 "") with
       | .ok b => b.pixel 0 0
       | .error _ => RGBA.mk 0 0 0 0) := by
  with_unfolding_all decide

/-- C4 amended: for every source image the per-colour grid canvas is
exactly width × (height × 10) with rows stacked top-to-bottom without
padding, and the pixel region of row i equals the row's composite
`composite(source, colorOrder[i], 0.6, overlay)` pasted over the
transparent canvas with the composite's own alpha as paste mask (which
coincides with the composite wherever the composite is fully opaque);
a failed row stays fully transparent. -/
theorem C4_amended_grid_rows (texture_name : String) (src : Image) (i x y : ℕ)
    (hi : i < 10) (hx : x < src.width) (hy : y < src.height) :
    (generate_color_grid texture_name src).width = src.width ∧
    (generate_color_grid texture_name src).height = src.height * 10 ∧
    (generate_color_grid texture_name src).pixel x (i * src.height + y) =
      (match colorGridCell src ((random_color_names texture_name).getD i "") with
       | .ok b => pasteMaskPixel ⟨0, 0, 0, 0⟩ (b.pixel x y)
       | .error _ => ⟨0, 0, 0, 0⟩) := by
  unfold generate_color_grid
  refine ⟨?_, ?_, ?_⟩
  · rw [colorGridRows_width]; rfl
  · rw [colorGridRows_height]; rfl
  · have hlen := random_color_names_length texture_name
    have hrow := colorGridRows_pixel_row src src.height rfl (random_color_names texture_name)
      (Image.new src.width (src.height * get_color_names.length) ⟨0, 0, 0, 0⟩) 0 i x y
      (by rw [hlen]; exact hi) hx hy
    rw [show (0 + i) * src.height + y = i * src.height + y by ring] at hrow
    rw [hrow]
    cases colorGridCell src ((random_color_names texture_name).getD i "") <;> rfl

/-- C4 witness: the amended row equation evaluated at a concrete 1×1
source, texture name x, row 0, pixel (0, 0). -/
theorem C4_amended_grid_rows_witness :
    ((0 : ℕ) < 10) ∧ ((0 : ℕ) < transparent1.width) ∧ ((0 : ℕ) < transparent1.height) ∧
    ((generate_color_grid "x" transparent1).width = transparent1.width ∧
     (generate_color_grid "x" transparent1).height = transparent1.height * 10 ∧
     (generate_color_grid "x" transparent1).pixel 0 (0 * transparent1.height + 0) =
       (match colorGridCell transparent1 ((random_color_names "x").getD 0 "") with
        | .ok b => pasteMaskPixel ⟨0, 0, 0, 0⟩ (b.pixel 0 0)
        | .error _ => ⟨0, 0, 0, 0⟩)) :=
  ⟨by decide, by decide, by decide,
   C4_amended_grid_rows "x" transparent1 0 0 0 (by decide) (by decide) (by decide)⟩

theorem textureGridRowAux (src : Image) (c : ℕ × ℕ × ℕ) (mode : String) (row : ℕ) :
    ∀ (l : List ℚ) (start : ℕ), (∀ o ∈ l, 0 ≤ o ∧ o ≤ 1) →
      ((List.enumFrom start l).filterMap (fun co =>
          match blend_texture_with_neon src c co.2 mode with
          | .ok blended =>
            some (scale_image_nearest blended SCALE_FACTOR,
                  texture_grid_cell_x (src.width * SCALE_FACTOR) co.1,
                  texture_grid_cell_y (src.height * SCALE_FACTOR) row)
          | .error _ => none)).map (fun e => e.2) =
      (List.range' start l.length).map (fun cl =>
        (texture_grid_cell_x (src.width * SCALE_FACTOR) cl,
         texture_grid_cell_y (src.height * SCALE_FACTOR) row)) := by
  intro l
  induction l with
  | nil => intro start h; rfl
  | cons o rest ih =>
    intro start h
    rw [show List.enumFrom start (o :: rest) = (start, o) :: List.enumFrom (start + 1) rest from rfl]
    rw [List.filterMap_cons]
    have h0 := (h o (by simp)).1
    have h1 := (h o (by simp)).2
    have hok := blend_texture_with_neon_eq_ok src c o mode h0 h1
    dsimp only
    rw [hok]
    dsimp only
    rw [List.map_cons]
    rw [show (o :: rest).length = rest.length + 1 from rfl]
    rw [List.range'_succ, List.map_cons]
    congr 1
    exact ih (start + 1) (fun o2 ho2 => h o2 (by simp [ho2]))

/-- C8: the parameter grid's total width equals
`labelStripWidth + columns * (cellWidth + padding) + padding` with
columns 9, cellWidth the source width times the 8× upscale factor,
label strip 100 and padding 4; the cell of column col is pasted at
horizontal offset `labelStripWidth + col * (cellWidth + padding) +
padding`, and the full list of cell paste positions is exactly the
4 × 9 row-major grid of the computed offsets. -/
theorem C8_parameter_grid_layout (src : Image) (c : ℕ × ℕ × ℕ) (col : ℕ) :
    (generate_texture_grid src c).width =
      labelStripWidth + gridColumns * (src.width * upscaleFactor + gridPadding) + gridPadding ∧
    texture_grid_cell_x (src.width * SCALE_FACTOR) col =
      labelStripWidth + col * (src.width * upscaleFactor + gridPadding) + gridPadding ∧
    (textureGridCellPastes src c).map (fun e => e.2) =
      (List.range 4).flatMap (fun row => (List.range 9).map (fun cl =>
        (texture_grid_cell_x (src.width * SCALE_FACTOR) cl,
         texture_grid_cell_y (src.height * SCALE_FACTOR) row))) := by
  have hvalid : ∀ o ∈ OPACITY_LEVELS, 0 ≤ o ∧ o ≤ 1 := by
    intro o ho
    simp only [OPACITY_LEVELS, List.mem_cons, List.not_mem_nil, or_false] at ho
    rcases ho with rfl | rfl | rfl | rfl | rfl | rfl | rfl | rfl | rfl <;>
      exact ⟨by norm_num, by norm_num⟩
  refine ⟨?_, ?_, ?_⟩
  · unfold generate_texture_grid
    rw [pasteMany_width]
    show (src.width * 8 + 4) * 9 + 4 + 100 = 100 + 9 * (src.width * 8 + 4) + 4
    ring
  · show 100 + col * (src.width * 8 + 4) + 4 = 100 + col * (src.width * 8 + 4) + 4
    rfl
  · unfold textureGridCellPastes
    rw [show BLEND_MODES.enum = [(0, "screen"), (1, "overlay"), (2, "multiply"), (3, "normal")]
          from rfl]
    simp only [List.flatMap_cons, List.flatMap_nil, List.append_nil, List.map_append]
    rw [show List.range 4 = [0, 1, 2, 3] from rfl]
    simp only [List.flatMap_cons, List.flatMap_nil, List.append_nil]
    rw [show OPACITY_LEVELS.enum = List.enumFrom 0 OPACITY_LEVELS from rfl]
    rw [textureGridRowAux src c "screen" 0 OPACITY_LEVELS 0 hvalid,
        textureGridRowAux src c "overlay" 1 OPACITY_LEVELS 0 hvalid,
        textureGridRowAux src c "multiply" 2 OPACITY_LEVELS 0 hvalid,
        textureGridRowAux src c "normal" 3 OPACITY_LEVELS 0 hvalid]
    rw [show OPACITY_LEVELS.length = 9 from rfl, ← List.range_eq_range']
